import Mathlib

/-!
Verification of the scroll-carousel interaction engine
(`src/components/product-carousel.tsx` and its two variants).

The engine synchronizes a continuous horizontal scroll offset with a
discrete selected-cell index.  Geometry is embedded over `ℚ`: the source
is JavaScript operating on pixel coordinates, and every arithmetic
operation it performs (`+`, `-`, `/ 2`, `Math.abs`, `Math.min`,
`Math.max`, `Math.round`, `<` comparisons) is exact on rationals.
Each definition below mirrors one function of the source file.
-/

namespace Carousel

/-- The `cellAlign` prop: one of the string literals
`"start" | "center" | "end"` (`end` is not a valid Lean name, hence `end'`). -/
inductive CellAlign where
  | start
  | center
  | end'
deriving DecidableEq

/-- One carousel cell as the engine reads it from the DOM:
`offsetLeft` (leading offset from the scroll origin) and `clientWidth`
(extent along the scroll axis). -/
structure Cell where
  offsetLeft : ℚ
  clientWidth : ℚ
deriving DecidableEq

/-- The container (viewport) as the engine reads it: current `scrollLeft`,
visible `clientWidth`, and total `scrollWidth`. -/
structure Container where
  scrollLeft : ℚ
  clientWidth : ℚ
  scrollWidth : ℚ
deriving DecidableEq

/-- JavaScript `Math.round`: round half-up, `⌊x + 1/2⌋`. -/
def jsRound (x : ℚ) : ℤ := ⌊x + 1 / 2⌋

/-- The unclamped alignment offset: the local `scrollLeft` variable of
`calculateLeftScroll` before the final clamp (lines 52-59 of
`product-carousel.tsx`). -/
def rawScroll (cellAlign : CellAlign) (container : Container) (cell : Cell) : ℚ :=
  match cellAlign with
  | .start => cell.offsetLeft
  | .center =>
      ((jsRound (cell.offsetLeft - container.clientWidth / 2 + cell.clientWidth / 2) : ℤ) : ℚ)
  | .end' => cell.offsetLeft + cell.clientWidth - container.clientWidth

/-- Source `calculateLeftScroll` (lines 49-61): the per-policy offset clamped by
`Math.min(Math.max(scrollLeft, 0), scrollWidth - clientWidth)`. -/
def calculateLeftScroll (cellAlign : CellAlign) (container : Container) (cell : Cell) : ℚ :=
  min (max (rawScroll cellAlign container cell) 0)
    (container.scrollWidth - container.clientWidth)

/-- The per-cell comparison point used by `calculateClosestIndex`:
`start` → `offsetLeft`, `center` → `offsetLeft + clientWidth / 2`,
`end` → `offsetLeft + clientWidth` (lines 75, 85, 94). -/
def cellPoint (cellAlign : CellAlign) (cell : Cell) : ℚ :=
  match cellAlign with
  | .start => cell.offsetLeft
  | .center => cell.offsetLeft + cell.clientWidth / 2
  | .end' => cell.offsetLeft + cell.clientWidth

/-- The `targetPoint` variable of `calculateClosestIndex` (lines 73, 83, 92):
`start` → `scrollLeft`, `center` → `scrollLeft + clientWidth / 2`,
`end` → `scrollLeft + clientWidth`. -/
def targetPoint (cellAlign : CellAlign) (container : Container) : ℚ :=
  match cellAlign with
  | .start => container.scrollLeft
  | .center => container.scrollLeft + container.clientWidth / 2
  | .end' => container.scrollLeft + container.clientWidth

/-- The `diff` computed for one cell inside each `forEach` branch:
`Math.abs(comparisonPoint - targetPoint)`. -/
def cellDiff (cellAlign : CellAlign) (target : ℚ) (cell : Cell) : ℚ :=
  |cellPoint cellAlign cell - target|

/-- The `forEach` accumulation of `calculateClosestIndex` (lines 74-99):
`index` is the position of the head of the remaining list, `closestIndex`
and `minDiff` are the accumulator variables.  `minDiff = none` models the
initial `Infinity` (every finite `diff` beats it); the comparison
`diff < minDiff` is strict, so the first minimum seen wins. -/
def closestLoop (cellAlign : CellAlign) (target : ℚ) :
    List Cell → Nat → Nat → Option ℚ → Nat
  | [], _, closestIndex, _ => closestIndex
  | cell :: rest, index, closestIndex, minDiff =>
      match minDiff with
      | none => closestLoop cellAlign target rest (index + 1) index
          (some (cellDiff cellAlign target cell))
      | some m =>
          if cellDiff cellAlign target cell < m then
            closestLoop cellAlign target rest (index + 1) index
              (some (cellDiff cellAlign target cell))
          else
            closestLoop cellAlign target rest (index + 1) closestIndex (some m)

/-- Source `calculateClosestIndex` (lines 65-102): returns 0 for an empty cell
list, otherwise runs the strict-minimum scan starting from
`closestIndex = 0`, `minDiff = Infinity`. -/
def calculateClosestIndex (cellAlign : CellAlign) (container : Container)
    (cells : List Cell) : Nat :=
  if cells.length = 0 then 0
  else closestLoop cellAlign (targetPoint cellAlign container) cells 0 0 none

/-- The five-cell layout of the specification's worked scenario: cells of
width 256 at pitch 272 (16-unit gaps), leading offsets 272·k. -/
def cells5 : List Cell :=
  [⟨0, 256⟩, ⟨272, 256⟩, ⟨544, 256⟩, ⟨816, 256⟩, ⟨1088, 256⟩]

/-- The matching viewport at rest: client width 800, scroll width 1344. -/
def cont800 : Container := ⟨0, 800, 1344⟩

example : calculateLeftScroll .center cont800 (cells5.getD 2 ⟨0, 0⟩) = 272 := by
  with_unfolding_all decide
example : calculateClosestIndex .center cont800 cells5 = 1 := by with_unfolding_all decide
example : calculateClosestIndex .center ⟨0, 800, 800⟩ [] = 0 := by with_unfolding_all decide

/-- The diff of the cell at global position `j` of the list (the default cell
is only ever read below the length bound). -/
def diffAt (cellAlign : CellAlign) (target : ℚ) (cells : List Cell) (j : Nat) : ℚ :=
  cellDiff cellAlign target (cells.getD j ⟨0, 0⟩)

/-- Loop invariant of the strict-minimum scan: if `best < index` carries the
first minimum of the positions already visited (value `m`), the loop returns
the first global minimum. `f` is the diff of the global position. -/
lemma closestLoop_inv (cellAlign : CellAlign) (target : ℚ) (f : Nat → ℚ) :
    ∀ (rest : List Cell) (index best : Nat) (m : ℚ),
      (∀ k, k < rest.length → f (index + k) = cellDiff cellAlign target (rest.getD k ⟨0, 0⟩)) →
      best < index → f best = m →
      (∀ j, j < index → m ≤ f j ∧ (f j = m → best ≤ j)) →
      closestLoop cellAlign target rest index best (some m) < index + rest.length ∧
      f (closestLoop cellAlign target rest index best (some m)) ≤ m ∧
      (∀ j, j < index + rest.length →
        f (closestLoop cellAlign target rest index best (some m)) ≤ f j ∧
        (f j = f (closestLoop cellAlign target rest index best (some m)) →
          closestLoop cellAlign target rest index best (some m) ≤ j)) := by
  intro rest
  induction rest with
  | nil =>
    intro index best m hf hbest hfb hmin
    simp only [closestLoop, List.length_nil, Nat.add_zero]
    refine ⟨hbest, le_of_eq hfb, ?_⟩
    intro j hj
    exact ⟨hfb ▸ (hmin j hj).1, fun hje => (hmin j hj).2 (hfb ▸ hje)⟩
  | cons cell rest ih =>
    intro index best m hf hbest hfb hmin
    have hd : f index = cellDiff cellAlign target cell := by
      have h0 := hf 0 (by simp)
      simpa using h0
    have hf' : ∀ k, k < rest.length →
        f (index + 1 + k) = cellDiff cellAlign target (rest.getD k ⟨0, 0⟩) := by
      intro k hk
      have h1 := hf (k + 1) (by simpa using Nat.succ_lt_succ hk)
      have e : index + (k + 1) = index + 1 + k := by omega
      rw [e] at h1
      simpa [List.getD_cons_succ] using h1
    by_cases hlt : cellDiff cellAlign target cell < m
    · have hstep : closestLoop cellAlign target (cell :: rest) index best (some m) =
          closestLoop cellAlign target rest (index + 1) index
            (some (cellDiff cellAlign target cell)) := by
        simp [closestLoop, hlt]
      have hmin' : ∀ j, j < index + 1 →
          cellDiff cellAlign target cell ≤ f j ∧
          (f j = cellDiff cellAlign target cell → index ≤ j) := by
        intro j hj
        rcases Nat.lt_succ_iff_lt_or_eq.mp hj with hj' | rfl
        · refine ⟨le_trans (le_of_lt hlt) (hmin j hj').1, ?_⟩
          intro hje
          have hc : cellDiff cellAlign target cell < f j :=
            lt_of_lt_of_le hlt (hmin j hj').1
          rw [hje] at hc
          exact absurd hc (lt_irrefl _)
        · exact ⟨le_of_eq hd.symm, fun _ => le_refl _⟩
      have IH := ih (index + 1) index (cellDiff cellAlign target cell) hf'
        (Nat.lt_succ_self index) hd hmin'
      rw [hstep]
      refine ⟨?_, le_trans IH.2.1 (le_of_lt hlt), ?_⟩
      · have h1 := IH.1
        simp only [List.length_cons]
        omega
      · intro j hj
        have hj' : j < index + 1 + rest.length := by
          simp only [List.length_cons] at hj
          omega
        exact IH.2.2 j hj'
    · have hstep : closestLoop cellAlign target (cell :: rest) index best (some m) =
          closestLoop cellAlign target rest (index + 1) best (some m) := by
        simp [closestLoop, hlt]
      have hmin' : ∀ j, j < index + 1 → m ≤ f j ∧ (f j = m → best ≤ j) := by
        intro j hj
        rcases Nat.lt_succ_iff_lt_or_eq.mp hj with hj' | rfl
        · exact hmin j hj'
        · exact ⟨by rw [hd]; exact not_lt.mp hlt, fun _ => le_of_lt hbest⟩
      have IH := ih (index + 1) best m hf' (Nat.lt_succ_of_lt hbest) hfb hmin'
      rw [hstep]
      refine ⟨?_, IH.2.1, ?_⟩
      · have h1 := IH.1
        simp only [List.length_cons]
        omega
      · intro j hj
        have hj' : j < index + 1 + rest.length := by
          simp only [List.length_cons] at hj
          omega
        exact IH.2.2 j hj'

/-- For a nonempty cell list the scan returns an in-range position that is a
minimum of the diffs, and the first such position (strict tie-break). -/
lemma calculateClosestIndex_argmin (cellAlign : CellAlign) (container : Container)
    (cells : List Cell) (h : cells ≠ []) :
    calculateClosestIndex cellAlign container cells < cells.length ∧
    ∀ j, j < cells.length →
      diffAt cellAlign (targetPoint cellAlign container) cells
          (calculateClosestIndex cellAlign container cells) ≤
        diffAt cellAlign (targetPoint cellAlign container) cells j ∧
      (diffAt cellAlign (targetPoint cellAlign container) cells j =
          diffAt cellAlign (targetPoint cellAlign container) cells
            (calculateClosestIndex cellAlign container cells) →
        calculateClosestIndex cellAlign container cells ≤ j) := by
  match cells, h with
  | cell :: rest, _ =>
    have hcc : calculateClosestIndex cellAlign container (cell :: rest) =
        closestLoop cellAlign (targetPoint cellAlign container) rest 1 0
          (some (cellDiff cellAlign (targetPoint cellAlign container) cell)) := by
      simp [calculateClosestIndex, closestLoop]
    have hf : ∀ k, k < rest.length →
        diffAt cellAlign (targetPoint cellAlign container) (cell :: rest) (1 + k) =
          cellDiff cellAlign (targetPoint cellAlign container) (rest.getD k ⟨0, 0⟩) := by
      intro k hk
      simp [diffAt, Nat.add_comm 1 k, List.getD_cons_succ]
    have hd0 : diffAt cellAlign (targetPoint cellAlign container) (cell :: rest) 0 =
        cellDiff cellAlign (targetPoint cellAlign container) cell := by
      simp [diffAt]
    have hmin0 : ∀ j, j < 1 →
        cellDiff cellAlign (targetPoint cellAlign container) cell ≤
          diffAt cellAlign (targetPoint cellAlign container) (cell :: rest) j ∧
        (diffAt cellAlign (targetPoint cellAlign container) (cell :: rest) j =
            cellDiff cellAlign (targetPoint cellAlign container) cell → 0 ≤ j) := by
      intro j hj
      have hj0 : j = 0 := by omega
      subst hj0
      exact ⟨le_of_eq hd0.symm, fun _ => Nat.zero_le _⟩
    have H := closestLoop_inv cellAlign (targetPoint cellAlign container)
      (diffAt cellAlign (targetPoint cellAlign container) (cell :: rest)) rest 1 0
      (cellDiff cellAlign (targetPoint cellAlign container) cell) hf (by omega) hd0 hmin0
    rw [hcc]
    constructor
    · have h1 := H.1
      simp only [List.length_cons]
      omega
    · intro j hj
      have hj' : j < 1 + rest.length := by
        simp only [List.length_cons] at hj
        omega
      exact H.2.2 j hj'

/-- If position `i` is itself a first minimum of the diffs, the resolver
returns exactly `i` (uniqueness of the first minimum). -/
lemma closestIndex_eq_of_first_argmin (cellAlign : CellAlign) (container : Container)
    (cells : List Cell) (i : Nat) (h : cells ≠ []) (hi : i < cells.length)
    (hargmin : ∀ j, j < cells.length →
      diffAt cellAlign (targetPoint cellAlign container) cells i ≤
        diffAt cellAlign (targetPoint cellAlign container) cells j ∧
      (diffAt cellAlign (targetPoint cellAlign container) cells j =
          diffAt cellAlign (targetPoint cellAlign container) cells i → i ≤ j)) :
    calculateClosestIndex cellAlign container cells = i := by
  obtain ⟨hr, hspec⟩ := calculateClosestIndex_argmin cellAlign container cells h
  have h1 := (hspec i hi).1
  have h2 := (hargmin (calculateClosestIndex cellAlign container cells) hr).1
  have heq : diffAt cellAlign (targetPoint cellAlign container) cells
      (calculateClosestIndex cellAlign container cells) =
      diffAt cellAlign (targetPoint cellAlign container) cells i := le_antisymm h1 h2
  have hri := (hspec i hi).2 heq.symm
  have hir := (hargmin (calculateClosestIndex cellAlign container cells) hr).2 heq
  omega

/-- C1: for every alignment policy and viewport, the Closest-Cell Resolver
returns, on a nonempty cell list, an in-range index whose policy comparison
point (`cellPoint`) has minimal absolute difference to the policy target
point (`targetPoint`); when two cells are equidistant the lowest index is
returned (strict less-than, first seen wins); an empty cell list resolves
to index 0. -/
theorem C1_closestCellResolver (cellAlign : CellAlign) (container : Container)
    (cells : List Cell) :
    (cells = [] → calculateClosestIndex cellAlign container cells = 0) ∧
    (cells ≠ [] →
      calculateClosestIndex cellAlign container cells < cells.length ∧
      ∀ j, j < cells.length →
        diffAt cellAlign (targetPoint cellAlign container) cells
            (calculateClosestIndex cellAlign container cells) ≤
          diffAt cellAlign (targetPoint cellAlign container) cells j ∧
        (diffAt cellAlign (targetPoint cellAlign container) cells j =
            diffAt cellAlign (targetPoint cellAlign container) cells
              (calculateClosestIndex cellAlign container cells) →
          calculateClosestIndex cellAlign container cells ≤ j)) := by
  constructor
  · intro h
    subst h
    rfl
  · intro h
    exact calculateClosestIndex_argmin cellAlign container cells h

/-- C1 applied to the specification's five-cell scenario. -/
theorem C1_closestCellResolver_witness :
    calculateClosestIndex .center cont800 cells5 < cells5.length ∧
    diffAt .center (targetPoint .center cont800) cells5
        (calculateClosestIndex .center cont800 cells5) ≤
      diffAt .center (targetPoint .center cont800) cells5 0 :=
  ⟨((C1_closestCellResolver .center cont800 cells5).2 (by with_unfolding_all decide)).1,
   (((C1_closestCellResolver .center cont800 cells5).2 (by with_unfolding_all decide)).2
      0 (by with_unfolding_all decide)).1⟩

/-- C2: the Alignment Calculator returns the per-policy offset
(`start` → `leadingOffset`, `center` → `round(leadingOffset − clientExtent/2
+ extent/2)`, `end` → `leadingOffset + extent − clientExtent`) clamped into
`[0, scrollableExtent − clientExtent]`; for a viewport satisfying the data
model's range validity (`clientExtent ≤ scrollableExtent`) the result always
lies in that interval, and collapses to 0 whenever
`scrollableExtent ≤ clientExtent`. -/
theorem C2_alignmentCalculator (cellAlign : CellAlign) (container : Container)
    (cell : Cell) (hvp : container.clientWidth ≤ container.scrollWidth) :
    calculateLeftScroll cellAlign container cell =
      min (max (rawScroll cellAlign container cell) 0)
        (container.scrollWidth - container.clientWidth) ∧
    rawScroll .start container cell = cell.offsetLeft ∧
    rawScroll .center container cell =
      ((jsRound (cell.offsetLeft - container.clientWidth / 2 + cell.clientWidth / 2) : ℤ) : ℚ) ∧
    rawScroll .end' container cell =
      cell.offsetLeft + cell.clientWidth - container.clientWidth ∧
    0 ≤ calculateLeftScroll cellAlign container cell ∧
    calculateLeftScroll cellAlign container cell ≤
      container.scrollWidth - container.clientWidth ∧
    (container.scrollWidth ≤ container.clientWidth →
      calculateLeftScroll cellAlign container cell = 0) := by
  have hU : 0 ≤ container.scrollWidth - container.clientWidth := by linarith
  have h0 : (0 : ℚ) ≤ max (rawScroll cellAlign container cell) 0 := le_max_right _ _
  refine ⟨rfl, rfl, rfl, rfl, ?_, ?_, ?_⟩
  · exact le_min h0 hU
  · exact min_le_right _ _
  · intro hsc
    have hz : container.scrollWidth - container.clientWidth = 0 := by linarith
    unfold calculateLeftScroll
    rw [hz]
    exact min_eq_right h0

/-- C2 applied to the specification's worked scenario: centering cell 2 of
the five-cell layout yields offset 272, inside `[0, 544]`. -/
theorem C2_alignmentCalculator_witness :
    cont800.clientWidth ≤ cont800.scrollWidth ∧
    calculateLeftScroll .center cont800 (cells5.getD 2 ⟨0, 0⟩) = 272 ∧
    0 ≤ calculateLeftScroll .center cont800 (cells5.getD 2 ⟨0, 0⟩) :=
  ⟨by with_unfolding_all decide, by with_unfolding_all decide,
   (C2_alignmentCalculator .center cont800 (cells5.getD 2 ⟨0, 0⟩)
      (by with_unfolding_all decide)).2.2.2.2.1⟩


lemma jsRound_sub_lt (x : ℚ) : x - 1 / 2 < ((jsRound x : ℤ) : ℚ) := by
  unfold jsRound
  have h := Int.lt_floor_add_one (x + 1 / 2)
  push_cast at h ⊢
  linarith

lemma jsRound_le_add (x : ℚ) : ((jsRound x : ℤ) : ℚ) ≤ x + 1 / 2 := by
  unfold jsRound
  exact_mod_cast Int.floor_le (x + 1 / 2)

/-- After scrolling to the unclamped alignment offset of a cell, the policy
target point sits within `(-1/2, 1/2]` of that cell's comparison point (the
half-unit slack comes only from `Math.round` in the `center` policy). -/
lemma target_near (cellAlign : CellAlign) (container : Container) (cell : Cell) :
    -(1 / 2 : ℚ) < targetPoint cellAlign
        { container with scrollLeft := rawScroll cellAlign container cell } -
      cellPoint cellAlign cell ∧
    targetPoint cellAlign
        { container with scrollLeft := rawScroll cellAlign container cell } -
      cellPoint cellAlign cell ≤ 1 / 2 := by
  cases cellAlign with
  | start =>
    simp only [targetPoint, cellPoint, rawScroll]
    norm_num
  | center =>
    have h1 := jsRound_sub_lt (cell.offsetLeft - container.clientWidth / 2 + cell.clientWidth / 2)
    have h2 := jsRound_le_add (cell.offsetLeft - container.clientWidth / 2 + cell.clientWidth / 2)
    simp only [targetPoint, cellPoint, rawScroll]
    constructor <;> linarith
  | end' =>
    simp only [targetPoint, cellPoint, rawScroll]
    norm_num

/-- C5 (amended): round-trip.  For a cell list with strictly increasing,
non-overlapping offsets, positive extents, comparison points at least one
unit apart (integer pixel geometry), and a cell `i` whose unclamped alignment
offset already lies in the scrollable range, scrolling to
`calculateLeftScroll(cell_i)` and then resolving the closest cell returns
`i`, for every uniform alignment policy. -/
theorem C5_roundTrip (cellAlign : CellAlign) (container : Container) (cells : List Cell)
    (i : Nat) (hi : i < cells.length)
    (hmono : ∀ k, k < cells.length → ∀ j, j < k →
      (cells.getD j ⟨0, 0⟩).offsetLeft + (cells.getD j ⟨0, 0⟩).clientWidth ≤
        (cells.getD k ⟨0, 0⟩).offsetLeft)
    (hpos : ∀ j, j < cells.length → 0 < (cells.getD j ⟨0, 0⟩).clientWidth)
    (hsep : ∀ k, k < cells.length → ∀ j, j < k →
      cellPoint cellAlign (cells.getD j ⟨0, 0⟩) + 1 ≤
        cellPoint cellAlign (cells.getD k ⟨0, 0⟩))
    (hlo : 0 ≤ rawScroll cellAlign container (cells.getD i ⟨0, 0⟩))
    (hhi : rawScroll cellAlign container (cells.getD i ⟨0, 0⟩) ≤
      container.scrollWidth - container.clientWidth) :
    calculateClosestIndex cellAlign
      { container with
        scrollLeft := calculateLeftScroll cellAlign container (cells.getD i ⟨0, 0⟩) }
      cells = i := by
  have hne : cells ≠ [] := by
    intro h
    subst h
    simp at hi
  have hclamp : calculateLeftScroll cellAlign container (cells.getD i ⟨0, 0⟩) =
      rawScroll cellAlign container (cells.getD i ⟨0, 0⟩) := by
    unfold calculateLeftScroll
    rw [max_eq_left hlo, min_eq_left hhi]
  rw [hclamp]
  have hδ := target_near cellAlign container (cells.getD i ⟨0, 0⟩)
  apply closestIndex_eq_of_first_argmin cellAlign _ cells i hne hi
  intro j hj
  simp only [diffAt, cellDiff]
  rcases lt_trichotomy j i with hji | rfl | hij
  · have hs := hsep i hi j hji
    have h1 : targetPoint cellAlign
          { container with scrollLeft := rawScroll cellAlign container (cells.getD i ⟨0, 0⟩) } -
          cellPoint cellAlign (cells.getD j ⟨0, 0⟩) ≤
        |cellPoint cellAlign (cells.getD j ⟨0, 0⟩) -
          targetPoint cellAlign
            { container with
              scrollLeft := rawScroll cellAlign container (cells.getD i ⟨0, 0⟩) }| := by
      rw [abs_sub_comm]
      exact le_abs_self _
    have hstrict : |cellPoint cellAlign (cells.getD i ⟨0, 0⟩) -
          targetPoint cellAlign
            { container with
              scrollLeft := rawScroll cellAlign container (cells.getD i ⟨0, 0⟩) }| <
        |cellPoint cellAlign (cells.getD j ⟨0, 0⟩) -
          targetPoint cellAlign
            { container with
              scrollLeft := rawScroll cellAlign container (cells.getD i ⟨0, 0⟩) }| := by
      rcases abs_cases (cellPoint cellAlign (cells.getD i ⟨0, 0⟩) -
          targetPoint cellAlign
            { container with
              scrollLeft := rawScroll cellAlign container (cells.getD i ⟨0, 0⟩) }) with
        ⟨e, _⟩ | ⟨e, _⟩ <;> rw [e] <;> linarith [hδ.1, hδ.2]
    exact ⟨le_of_lt hstrict, fun heq => absurd (heq ▸ hstrict) (lt_irrefl _)⟩
  · exact ⟨le_refl _, fun _ => le_refl _⟩
  · have hs := hsep j hj i hij
    have h1 : cellPoint cellAlign (cells.getD j ⟨0, 0⟩) -
          targetPoint cellAlign
            { container with
              scrollLeft := rawScroll cellAlign container (cells.getD i ⟨0, 0⟩) } ≤
        |cellPoint cellAlign (cells.getD j ⟨0, 0⟩) -
          targetPoint cellAlign
            { container with
              scrollLeft := rawScroll cellAlign container (cells.getD i ⟨0, 0⟩) }| :=
      le_abs_self _
    refine ⟨?_, fun _ => le_of_lt hij⟩
    rcases abs_cases (cellPoint cellAlign (cells.getD i ⟨0, 0⟩) -
        targetPoint cellAlign
          { container with
            scrollLeft := rawScroll cellAlign container (cells.getD i ⟨0, 0⟩) }) with
      ⟨e, _⟩ | ⟨e, _⟩ <;> rw [e] <;> linarith [hδ.1, hδ.2]

/-- Two cells wholly left of the resting viewport: strictly increasing,
non-overlapping offsets and positive extents, but the viewport cannot scroll
(`scrollWidth = clientWidth`). -/
def cellsNarrow : List Cell := [⟨0, 100⟩, ⟨100, 100⟩]

/-- The counterexample viewport for the unamended round-trip claim. -/
def contWide : Container := ⟨0, 800, 800⟩

/-- C5 as stated is false: with strictly increasing, non-overlapping offsets,
positive extents and a uniform `center` policy, aligning cell 0 (the clamp
collapses the offset to 0) and then resolving returns cell 1, not 0. -/
theorem C5_roundTrip_counterexample :
    (cellsNarrow.getD 0 ⟨0, 0⟩).offsetLeft + (cellsNarrow.getD 0 ⟨0, 0⟩).clientWidth ≤
      (cellsNarrow.getD 1 ⟨0, 0⟩).offsetLeft ∧
    0 < (cellsNarrow.getD 0 ⟨0, 0⟩).clientWidth ∧
    0 < (cellsNarrow.getD 1 ⟨0, 0⟩).clientWidth ∧
    calculateClosestIndex .center
      { contWide with
        scrollLeft := calculateLeftScroll .center contWide (cellsNarrow.getD 0 ⟨0, 0⟩) }
      cellsNarrow = 1 := by
  with_unfolding_all decide

/-- C5 (amended) applied to the specification's five-cell scenario at index 2. -/
theorem C5_roundTrip_witness :
    calculateClosestIndex .center
      { cont800 with
        scrollLeft := calculateLeftScroll .center cont800 (cells5.getD 2 ⟨0, 0⟩) }
      cells5 = 2 :=
  C5_roundTrip .center cont800 cells5 2 (by with_unfolding_all decide)
    (by with_unfolding_all decide) (by with_unfolding_all decide)
    (by with_unfolding_all decide) (by with_unfolding_all decide)
    (by with_unfolding_all decide)

/-- Effects the engine requests from its collaborators: a selection-listener
notification (`onSelect(index, cell-or-null)`), an animated absolute scroll
(`scrollTo`), or an animated relative scroll (`scrollBy`). -/
inductive Effect where
  | select (index : ℤ) (cell : Option Cell)
  | scrollToSmooth (left : ℚ)
  | scrollBySmooth (delta : ℚ)
deriving DecidableEq

/-- Whether an effect is a scroll request (absolute or relative). -/
def isScrollRequest : Effect → Bool
  | .select _ _ => false
  | .scrollToSmooth _ => true
  | .scrollBySmooth _ => true

/-- JavaScript array indexing `cells[i]` followed by `|| null`: `none` for a
negative or out-of-range index. -/
def cellsGet (cells : List Cell) (i : ℤ) : Option Cell :=
  if 0 ≤ i then cells.get? i.toNat else none

/-- The component's configuration props (defaults: `cellAlign = center`,
`groupCells = 1`, `allowDrag = true`, `freeDrag = false`,
`centerOnArrowClick = true`). -/
structure Config where
  cellAlign : CellAlign
  groupCells : ℤ
  allowDrag : Bool
  freeDrag : Bool
  centerOnArrowClick : Bool
deriving DecidableEq

/-- Static geometry: the container's client and scroll widths and the cell
list.  The engine re-reads these from the DOM on every event; they are
parameters here because no event of the model changes layout. -/
structure Geometry where
  clientWidth : ℚ
  scrollWidth : ℚ
  cells : List Cell
deriving DecidableEq

/-- The mutable state of one component instance: `selectedIndex` (React
state, an arbitrary JS integer), the container's live `scrollLeft`, the drag
refs, and the pending settle timeout as time-units remaining until its
callback runs (`none` when no timeout is scheduled).  Vertical coordinates
(`pageY`, `scrollTop`) are recorded by the source but never read, so the
embedding models the scroll axis only. -/
structure EngineState where
  selectedIndex : ℤ
  scrollLeft : ℚ
  isDragging : Bool
  dragStartX : ℚ
  dragStartScrollLeft : ℚ
  pendingTimer : Option Nat
  snapSuspended : Bool
deriving DecidableEq

/-- The container as the handlers read it from the DOM. -/
def containerOf (g : Geometry) (s : EngineState) : Container :=
  ⟨s.scrollLeft, g.clientWidth, g.scrollWidth⟩

/-- Source `handleScroll` (lines 114-124): clear any pending timeout and schedule
the settle callback 75 time-units ahead. -/
def engineScrollNotify (s : EngineState) : EngineState :=
  { s with pendingTimer := some 75 }

/-- Timer bookkeeping plus the scheduled settle callback body:
`engineElapse dt` lets `dt` time-units pass with no intervening event.  If
the pending timeout expires its callback runs: when `freeDrag` is false it
resolves the closest index and updates the selection (notifying the
listener); when `freeDrag` is true it does nothing (lines 118-123). -/
def engineElapse (cfg : Config) (g : Geometry) (dt : Nat) (s : EngineState) :
    EngineState × List Effect :=
  match s.pendingTimer with
  | none => (s, [])
  | some t =>
      if dt < t then ({ s with pendingTimer := some (t - dt) }, [])
      else if cfg.freeDrag then ({ s with pendingTimer := none }, [])
      else
        ({ s with
            pendingTimer := none
            selectedIndex :=
              (calculateClosestIndex cfg.cellAlign (containerOf g s) g.cells : ℤ) },
         [Effect.select (calculateClosestIndex cfg.cellAlign (containerOf g s) g.cells : ℤ)
            (cellsGet g.cells
              (calculateClosestIndex cfg.cellAlign (containerOf g s) g.cells : ℤ))])

/-- Source `handleMouseDown` (lines 127-140): when `allowDrag`, start a drag
session, record the pointer origin and scroll origin, and suspend native
snapping.  The pending settle timeout is left untouched. -/
def engineMouseDown (cfg : Config) (x : ℚ) (s : EngineState) : EngineState :=
  if cfg.allowDrag then
    { s with
        isDragging := true
        dragStartX := x
        dragStartScrollLeft := s.scrollLeft
        snapSuspended := true }
  else s

/-- Source `handleMouseMove` (lines 143-148): while dragging, set the scroll offset
to the recorded origin minus the pointer delta. -/
def engineMouseMove (x : ℚ) (s : EngineState) : EngineState :=
  if s.isDragging then
    { s with scrollLeft := s.dragStartScrollLeft - (x - s.dragStartX) }
  else s

/-- Source `handleMouseUp` (lines 152-168), attached to both `onMouseUp` and
`onMouseLeave`: gated only on `allowDrag` — not on an active drag session —
it ends the session, restores snapping, and when `freeDrag` is false and the
pointer x differs from the recorded drag origin it resolves the closest
cell, requests an animated corrective scroll to its aligned offset, and then
updates the selection. -/
def engineMouseUp (cfg : Config) (g : Geometry) (x : ℚ) (s : EngineState) :
    EngineState × List Effect :=
  if cfg.allowDrag then
    if cfg.freeDrag = false ∧ 0 < |x - s.dragStartX| then
      match cellsGet g.cells
          (calculateClosestIndex cfg.cellAlign (containerOf g s) g.cells : ℤ) with
      | some cell =>
          ({ s with
              isDragging := false
              snapSuspended := false
              selectedIndex :=
                (calculateClosestIndex cfg.cellAlign (containerOf g s) g.cells : ℤ) },
           [Effect.scrollToSmooth (calculateLeftScroll cfg.cellAlign (containerOf g s) cell),
            Effect.select (calculateClosestIndex cfg.cellAlign (containerOf g s) g.cells : ℤ)
              (some cell)])
      | none =>
          ({ s with
              isDragging := false
              snapSuspended := false
              selectedIndex :=
                (calculateClosestIndex cfg.cellAlign (containerOf g s) g.cells : ℤ) },
           [Effect.select (calculateClosestIndex cfg.cellAlign (containerOf g s) g.cells : ℤ)
              none])
    else ({ s with isDragging := false, snapSuspended := false }, [])
  else (s, [])

/-- Source `handleNext` (lines 246-268): with `centerOnArrowClick`, candidate
`min(selectedIndex + groupCells, cells.length − 1)`, optimistic selection
update (`updateSelectedIndex` notifies the listener first), then an animated
scroll to the candidate cell's aligned offset when that cell exists;
otherwise only an animated relative scroll by one viewport width. -/
def engineNext (cfg : Config) (g : Geometry) (s : EngineState) :
    EngineState × List Effect :=
  if cfg.centerOnArrowClick then
    match cellsGet g.cells
        (min (s.selectedIndex + cfg.groupCells) ((g.cells.length : ℤ) - 1)) with
    | some cell =>
        ({ s with selectedIndex := min (s.selectedIndex + cfg.groupCells) ((g.cells.length : ℤ) - 1) },
         [Effect.select (min (s.selectedIndex + cfg.groupCells) ((g.cells.length : ℤ) - 1))
            (some cell),
          Effect.scrollToSmooth (calculateLeftScroll cfg.cellAlign (containerOf g s) cell)])
    | none =>
        ({ s with selectedIndex := min (s.selectedIndex + cfg.groupCells) ((g.cells.length : ℤ) - 1) },
         [Effect.select (min (s.selectedIndex + cfg.groupCells) ((g.cells.length : ℤ) - 1))
            none])
  else
    (s, [Effect.scrollBySmooth g.clientWidth])

/-- Source `handlePrevious` (lines 220-243): with `centerOnArrowClick`, candidate
`max(selectedIndex − groupCells, 0)`, optimistic selection update, then an
animated scroll to the candidate cell's aligned offset when that cell
exists; otherwise only an animated relative scroll by one negative viewport
width. -/
def enginePrevious (cfg : Config) (g : Geometry) (s : EngineState) :
    EngineState × List Effect :=
  if cfg.centerOnArrowClick then
    match cellsGet g.cells (max (s.selectedIndex - cfg.groupCells) 0) with
    | some cell =>
        ({ s with selectedIndex := max (s.selectedIndex - cfg.groupCells) 0 },
         [Effect.select (max (s.selectedIndex - cfg.groupCells) 0) (some cell),
          Effect.scrollToSmooth (calculateLeftScroll cfg.cellAlign (containerOf g s) cell)])
    | none =>
        ({ s with selectedIndex := max (s.selectedIndex - cfg.groupCells) 0 },
         [Effect.select (max (s.selectedIndex - cfg.groupCells) 0) none])
  else
    (s, [Effect.scrollBySmooth (-g.clientWidth)])

/-- The touch-drag state of the touch-input variants
(`src/unnamed/part_000` and `part_001`): the container's live scroll offset
and the recorded touch origin (`touchStartRef`). -/
structure TouchState where
  scrollLeft : ℚ
  touchStartX : ℚ
  touchStartScrollLeft : ℚ
deriving DecidableEq

/-- Source `handleTouchStart` of the touch variants: gated on `allowDrag`; records
the touch origin coordinate and the origin scroll offset. -/
def handleTouchStart (allowDrag : Bool) (x : ℚ) (s : TouchState) : TouchState :=
  if allowDrag then { s with touchStartX := x, touchStartScrollLeft := s.scrollLeft }
  else s

/-- Source `handleTouchMove` of the touch variants (part_000 lines 97-102, part_001
lines 52-57): with no `allowDrag` check and no drag-session check, sets the
scroll offset to the recorded origin minus the pointer delta. -/
def handleTouchMove (x : ℚ) (s : TouchState) : TouchState :=
  { s with scrollLeft := s.touchStartScrollLeft - (x - s.touchStartX) }

/-- The default configuration of the main variant: `center` alignment,
`groupCells = 1`, dragging allowed, `freeDrag` false, arrow clicks center. -/
def cfgC : Config := ⟨.center, 1, true, false, true⟩

/-- The default configuration with `freeDrag` switched on. -/
def cfgF : Config := ⟨.center, 1, true, true, true⟩

/-- The five-cell scenario geometry. -/
def geom5 : Geometry := ⟨800, 1344, cells5⟩

/-- Geometry with an empty cell list (no cells rendered). -/
def geomEmpty : Geometry := ⟨800, 800, []⟩

/-- The initial component state: index 0, resting scroll, idle. -/
def s0 : EngineState := ⟨0, 0, false, 0, 0, none, false⟩

lemma cellsGet_isSome (cells : List Cell) (i : ℤ) (h0 : 0 ≤ i)
    (h1 : i < (cells.length : ℤ)) : ∃ cell, cellsGet cells i = some cell := by
  unfold cellsGet
  rw [if_pos h0]
  have hlt : i.toNat < cells.length := by omega
  exact ⟨cells.get ⟨i.toNat, hlt⟩, List.get?_eq_get hlt⟩

/-- With `centerOnArrowClick`, the state reached by `next()` always carries
the clamped candidate index, whichever match branch ran. -/
lemma engineNext_fst (cfg : Config) (g : Geometry) (s : EngineState)
    (h : cfg.centerOnArrowClick = true) :
    (engineNext cfg g s).1 =
      { s with selectedIndex := min (s.selectedIndex + cfg.groupCells) ((g.cells.length : ℤ) - 1) } := by
  cases hM : cellsGet g.cells
      (min (s.selectedIndex + cfg.groupCells) ((g.cells.length : ℤ) - 1)) <;>
    simp [engineNext, h, hM]

/-- With `centerOnArrowClick`, the state reached by `previous()` always
carries the clamped candidate index, whichever match branch ran. -/
lemma enginePrevious_fst (cfg : Config) (g : Geometry) (s : EngineState)
    (h : cfg.centerOnArrowClick = true) :
    (enginePrevious cfg g s).1 =
      { s with selectedIndex := max (s.selectedIndex - cfg.groupCells) 0 } := by
  cases hM : cellsGet g.cells (max (s.selectedIndex - cfg.groupCells) 0) <;>
    simp [enginePrevious, h, hM]

/-- C3: with `centerOnArrowClick` true, a current index in range and
nonnegative `groupCells`, `next()` sets the selection to
`min(i + groupCells, cellCount − 1)` and `previous()` to
`max(i − groupCells, 0)`; each emits the selection update (listener
notification) before the animated-scroll request to the candidate cell's
aligned offset. -/
theorem C3_navigationStep (cfg : Config) (g : Geometry) (s : EngineState)
    (hcoac : cfg.centerOnArrowClick = true) (hg : 0 ≤ cfg.groupCells)
    (h0 : 0 ≤ s.selectedIndex) (hlen : s.selectedIndex < (g.cells.length : ℤ)) :
    (∃ cell,
      cellsGet g.cells (min (s.selectedIndex + cfg.groupCells) ((g.cells.length : ℤ) - 1)) =
        some cell ∧
      engineNext cfg g s =
        ({ s with selectedIndex := min (s.selectedIndex + cfg.groupCells) ((g.cells.length : ℤ) - 1) },
         [Effect.select (min (s.selectedIndex + cfg.groupCells) ((g.cells.length : ℤ) - 1))
            (some cell),
          Effect.scrollToSmooth (calculateLeftScroll cfg.cellAlign (containerOf g s) cell)])) ∧
    (∃ cell,
      cellsGet g.cells (max (s.selectedIndex - cfg.groupCells) 0) = some cell ∧
      enginePrevious cfg g s =
        ({ s with selectedIndex := max (s.selectedIndex - cfg.groupCells) 0 },
         [Effect.select (max (s.selectedIndex - cfg.groupCells) 0) (some cell),
          Effect.scrollToSmooth (calculateLeftScroll cfg.cellAlign (containerOf g s) cell)])) := by
  constructor
  · obtain ⟨cell, hc⟩ := cellsGet_isSome g.cells
      (min (s.selectedIndex + cfg.groupCells) ((g.cells.length : ℤ) - 1))
      (by omega) (by omega)
    exact ⟨cell, hc, by simp [engineNext, hcoac, hc]⟩
  · obtain ⟨cell, hc⟩ := cellsGet_isSome g.cells
      (max (s.selectedIndex - cfg.groupCells) 0) (by omega) (by omega)
    exact ⟨cell, hc, by simp [enginePrevious, hcoac, hc]⟩

/-- C3 applied to the five-cell scenario from the initial state: `next()`
lands on index 1 with the listener notified first. -/
theorem C3_navigationStep_witness :
    (engineNext cfgC geom5 s0).1.selectedIndex =
      min (s0.selectedIndex + cfgC.groupCells) ((geom5.cells.length : ℤ) - 1) := by
  obtain ⟨⟨cell, hc, heq⟩, -⟩ := C3_navigationStep cfgC geom5 s0 rfl (by decide)
    (by decide) (by with_unfolding_all decide)
  rw [heq]

/-- C4 as stated is false: on an empty cell list, `next()` with the default
configuration moves the selection from 0 to −1 (`min(0 + 1, 0 − 1) = −1`)
and notifies the listener, instead of being a no-op that keeps 0. -/
theorem C4_navigationBounds_counterexample :
    s0.selectedIndex = 0 ∧
    (engineNext cfgC geomEmpty s0).1.selectedIndex = -1 ∧
    (engineNext cfgC geomEmpty s0).2 = [Effect.select (-1) none] := by
  with_unfolding_all decide

/-- C4 (amended): with `centerOnArrowClick` true, for a nonempty cell list
and an in-range index both handlers keep the selection inside
`[0, cellCount − 1]`; on an empty cell list (selection 0) `previous()`
keeps the selection at 0 and requests no scroll, while `next()` requests no
scroll but sets the selection to −1; with `centerOnArrowClick` false
neither handler changes the component state at all. -/
theorem C4_navigationBounds (cfg : Config) (g : Geometry) (s : EngineState)
    (hg : 0 ≤ cfg.groupCells) :
    (cfg.centerOnArrowClick = true →
      (g.cells ≠ [] → 0 ≤ s.selectedIndex → s.selectedIndex < (g.cells.length : ℤ) →
        (0 ≤ (engineNext cfg g s).1.selectedIndex ∧
         (engineNext cfg g s).1.selectedIndex ≤ (g.cells.length : ℤ) - 1) ∧
        (0 ≤ (enginePrevious cfg g s).1.selectedIndex ∧
         (enginePrevious cfg g s).1.selectedIndex ≤ (g.cells.length : ℤ) - 1)) ∧
      (g.cells = [] → s.selectedIndex = 0 →
        (enginePrevious cfg g s).1.selectedIndex = 0 ∧
        (∀ e ∈ (enginePrevious cfg g s).2, isScrollRequest e = false) ∧
        (engineNext cfg g s).1.selectedIndex = -1 ∧
        (∀ e ∈ (engineNext cfg g s).2, isScrollRequest e = false))) ∧
    (cfg.centerOnArrowClick = false →
      (engineNext cfg g s).1 = s ∧ (enginePrevious cfg g s).1 = s) := by
  constructor
  · intro hcoac
    constructor
    · intro hne h0 hlen
      have hn := engineNext_fst cfg g s hcoac
      have hp := enginePrevious_fst cfg g s hcoac
      refine ⟨⟨?_, ?_⟩, ?_, ?_⟩ <;> simp only [hn, hp] <;> omega
    · intro hcells hs0
      have hlen0 : g.cells.length = 0 := by rw [hcells]; rfl
      have hcn : cellsGet g.cells
          (min (s.selectedIndex + cfg.groupCells) ((g.cells.length : ℤ) - 1)) = none := by
        unfold cellsGet
        split
        · rw [hcells]
          simp
        · rfl
      have hcp : cellsGet g.cells (max (s.selectedIndex - cfg.groupCells) 0) = none := by
        unfold cellsGet
        split
        · rw [hcells]
          simp
        · rfl
      refine ⟨?_, ?_, ?_, ?_⟩
      · simp only [enginePrevious, hcoac, if_true, hcp]
        simp
        omega
      · simp [enginePrevious, hcoac, hcp, isScrollRequest]
      · simp only [engineNext, hcoac, if_true, hcn]
        simp [hlen0]
        omega
      · simp [engineNext, hcoac, hcn, isScrollRequest]
  · intro hcoac
    constructor <;> simp [engineNext, enginePrevious, hcoac]

/-- C4 (amended) applied to the five-cell scenario from the initial state. -/
theorem C4_navigationBounds_witness :
    0 ≤ (engineNext cfgC geom5 s0).1.selectedIndex :=
  ((((C4_navigationBounds cfgC geom5 s0 (by decide)).1 rfl).1 (by decide) (by decide)
      (by decide)).1).1

/-- C6 as stated is false: `previous()` at index 0 keeps the selection at 0
but the listener IS invoked with the unchanged value
(`updateSelectedIndex(0)` runs unconditionally, lines 225-226). -/
theorem C6_boundaryNavigation_counterexample :
    s0.selectedIndex = 0 ∧
    (enginePrevious cfgC geom5 s0).1.selectedIndex = 0 ∧
    (enginePrevious cfgC geom5 s0).2 =
      [Effect.select 0 (some ⟨0, 256⟩), Effect.scrollToSmooth 0] := by
  with_unfolding_all decide

/-- C6 (amended): at a navigation boundary with `centerOnArrowClick` true
(`previous()` at index 0, `next()` at the last index) the candidate index is
clamped to the current index, the selection value does not change and no
error occurs (the handlers are total), but the selection listener is still
notified with the unchanged value. -/
theorem C6_boundaryNavigation (cfg : Config) (g : Geometry) (s : EngineState)
    (hcoac : cfg.centerOnArrowClick = true) (hg : 0 ≤ cfg.groupCells) :
    (s.selectedIndex = 0 →
      (enginePrevious cfg g s).1.selectedIndex = s.selectedIndex ∧
      ∃ c, Effect.select s.selectedIndex c ∈ (enginePrevious cfg g s).2) ∧
    (s.selectedIndex = (g.cells.length : ℤ) - 1 →
      (engineNext cfg g s).1.selectedIndex = s.selectedIndex ∧
      ∃ c, Effect.select s.selectedIndex c ∈ (engineNext cfg g s).2) := by
  constructor
  · intro hs
    have hidx : max (s.selectedIndex - cfg.groupCells) 0 = s.selectedIndex := by omega
    cases hM : cellsGet g.cells (max (s.selectedIndex - cfg.groupCells) 0) with
    | none =>
        rw [hidx] at hM
        exact ⟨by simp [enginePrevious, hcoac, hM, hidx],
          ⟨none, by simp [enginePrevious, hcoac, hM, hidx]⟩⟩
    | some c =>
        rw [hidx] at hM
        exact ⟨by simp [enginePrevious, hcoac, hM, hidx],
          ⟨some c, by simp [enginePrevious, hcoac, hM, hidx]⟩⟩
  · intro hs
    have hidx : min (s.selectedIndex + cfg.groupCells) ((g.cells.length : ℤ) - 1) =
        s.selectedIndex := by omega
    cases hM : cellsGet g.cells
        (min (s.selectedIndex + cfg.groupCells) ((g.cells.length : ℤ) - 1)) with
    | none =>
        rw [hidx] at hM
        exact ⟨by simp [engineNext, hcoac, hM, hidx],
          ⟨none, by simp [engineNext, hcoac, hM, hidx]⟩⟩
    | some c =>
        rw [hidx] at hM
        exact ⟨by simp [engineNext, hcoac, hM, hidx],
          ⟨some c, by simp [engineNext, hcoac, hM, hidx]⟩⟩

/-- C6 (amended) applied to `previous()` at index 0 in the five-cell
scenario. -/
theorem C6_boundaryNavigation_witness :
    (enginePrevious cfgC geom5 s0).1.selectedIndex = s0.selectedIndex :=
  ((C6_boundaryNavigation cfgC geom5 s0 rfl (by decide)).1 (by decide)).1

/-- C7 is violated by the code: `handleMouseDown` (lines 127-140) never
clears `scrollTimeoutRef`.  From the initial state, a scroll notification
schedules the 75-unit settle timeout; the following drag-start leaves the
timeout pending, and after 75 quiet units the settle callback fires and
re-resolves the selection while the drag is still in progress. -/
theorem C7_dragStartKeepsSettleTimer :
    (engineMouseDown cfgC 0 (engineScrollNotify s0)).pendingTimer = some 75 ∧
    (engineMouseDown cfgC 0 (engineScrollNotify s0)).isDragging = true ∧
    (engineElapse cfgC geom5 75 (engineMouseDown cfgC 0 (engineScrollNotify s0))).1.isDragging
      = true ∧
    (engineElapse cfgC geom5 75 (engineMouseDown cfgC 0 (engineScrollNotify s0))).2 =
      [Effect.select 1 (some ⟨272, 256⟩)] := by
  with_unfolding_all decide

/-- C8 is violated by the code: `handleMouseUp` (lines 152-168) is not gated
on an active drag session (unlike the document-level handler, lines 172-190,
which does check `isDraggingRef`).  From the idle, never-dragged initial
state, a stray mouse-up (or mouse-leave) at x = 100 with `freeDrag` false
resolves the closest cell, requests a corrective animated scroll and updates
the selection, instead of being ignored. -/
theorem C8_strayMouseUpNotIgnored :
    s0.isDragging = false ∧
    (engineMouseUp cfgC geom5 100 s0).1.selectedIndex = 1 ∧
    (engineMouseUp cfgC geom5 100 s0).2 =
      [Effect.scrollToSmooth 0, Effect.select 1 (some ⟨272, 256⟩)] := by
  with_unfolding_all decide

/-- C9 as stated is false: with `freeDrag` true, after a drag is released
mid-cell the selection indeed does not change at release time, but when the
75-unit debounce window elapses the settle callback does NOT resolve the
closest index: the selection stays 0 although the closest cell at the
settled offset 400 is index 2. -/
theorem C9_freeDragSettle_counterexample :
    (engineElapse cfgF geom5 75
        ((engineMouseUp cfgF geom5 100
          (engineScrollNotify
            (engineMouseMove 100 (engineMouseDown cfgF 500 s0)))).1)).1.selectedIndex = 0 ∧
    (engineElapse cfgF geom5 75
        ((engineMouseUp cfgF geom5 100
          (engineScrollNotify
            (engineMouseMove 100 (engineMouseDown cfgF 500 s0)))).1)).2 = [] ∧
    calculateClosestIndex cfgF.cellAlign
      (containerOf geom5
        ((engineMouseUp cfgF geom5 100
          (engineScrollNotify
            (engineMouseMove 100 (engineMouseDown cfgF 500 s0)))).1))
      geom5.cells = 2 := by
  with_unfolding_all decide

/-- C9 (amended): with `freeDrag` true the selection does not change at drag
release (and the release emits no effect), and letting any amount of quiet
time pass — including the full 75-unit debounce window — the settle callback
fires without resolving: the selection still does not change and no effect
is emitted.  Resolution happens only when `freeDrag` is false. -/
theorem C9_freeDragNoResolve (cfg : Config) (g : Geometry) (s : EngineState)
    (x : ℚ) (dt : Nat) (hfd : cfg.freeDrag = true) :
    (engineMouseUp cfg g x s).1.selectedIndex = s.selectedIndex ∧
    (engineMouseUp cfg g x s).2 = [] ∧
    (engineElapse cfg g dt s).1.selectedIndex = s.selectedIndex ∧
    (engineElapse cfg g dt s).2 = [] := by
  refine ⟨?_, ?_, ?_, ?_⟩
  · cases hA : cfg.allowDrag <;> simp [engineMouseUp, hA, hfd]
  · cases hA : cfg.allowDrag <;> simp [engineMouseUp, hA, hfd]
  · cases hT : s.pendingTimer with
    | none => simp [engineElapse, hT]
    | some t =>
        by_cases hdt : dt < t <;> simp [engineElapse, hT, hdt, hfd]
  · cases hT : s.pendingTimer with
    | none => simp [engineElapse, hT]
    | some t =>
        by_cases hdt : dt < t <;> simp [engineElapse, hT, hdt, hfd]

/-- C9 (amended) applied to the settled drag state of the counterexample
trace: the full debounce window passes and the selection is unchanged. -/
theorem C9_freeDragNoResolve_witness :
    (engineElapse cfgF geom5 75 s0).1.selectedIndex = s0.selectedIndex :=
  (C9_freeDragNoResolve cfgF geom5 s0 100 75 rfl).2.2.1

/-- C10: in the touch-input variants `handleTouchMove` checks neither
`allowDrag` nor any active-drag flag: for every state it sets the scroll
offset to the recorded touch-origin `scrollLeft` minus the pointer delta.
With `allowDrag = false` the touch-start is a no-op (only the recorded
origin is gated), so a subsequent touch-move still changes the scroll
offset: from offset 100 with a stale zero origin, moving to x = 60 drags
the offset to −60. -/
theorem C10_touchMoveIgnoresAllowDrag :
    (∀ (x : ℚ) (s : TouchState),
      (handleTouchMove x s).scrollLeft = s.touchStartScrollLeft - (x - s.touchStartX)) ∧
    (∀ (x : ℚ) (s : TouchState), handleTouchStart false x s = s) ∧
    (handleTouchMove 60 (handleTouchStart false 50 ⟨100, 0, 0⟩)).scrollLeft = -60 ∧
    (handleTouchMove 60 (handleTouchStart false 50 ⟨100, 0, 0⟩)).scrollLeft ≠
      (⟨100, 0, 0⟩ : TouchState).scrollLeft := by
  refine ⟨fun x s => rfl, fun x s => rfl, ?_, ?_⟩
  · with_unfolding_all decide
  · with_unfolding_all decide

end Carousel
